import Mathlib

/-!
Shallow embedding of the go-profile in-memory user CRUD service.

The Go store is `map[ID]User` with ID a 128-bit UUID; we model identifiers
as natural numbers (the 128-bit value) and the map as an association list
with Go map semantics (assignment replaces in place, delete removes the key,
lookup returns the first — unique — binding).  The random generator
`uuid.New()` is modelled as an explicit stream `gen : Nat → Nat` of candidate
identifiers, and the unbounded retry loop in `Insert` as a fuel-indexed
search over that stream: `none` means the loop has not terminated within the
given fuel.
-/

namespace Api

/-- A user record: `FirstName`, `LastName`, `Biography` (Go struct `User`). -/
structure User where
  FirstName : String
  LastName : String
  Biography : String
deriving DecidableEq, Repr

/-- The in-memory store: Go `map[ID]User`, as an association list from the
128-bit identifier value to the record. -/
def Store := List (Nat × User)

instance : DecidableEq Store := by
  unfold Store
  infer_instance

/-- Go map read `a.data[id]` (comma-ok form): the binding at `id`, if any. -/
def lookupS (s : Store) (id : Nat) : Option User :=
  match s with
  | [] => none
  | (k, v) :: rest => if k = id then some v else lookupS rest id

/-- Go map assignment `a.data[id] = user`: replace the binding in place if the
key is present, otherwise add a new binding. -/
def mapSet (s : Store) (id : Nat) (u : User) : Store :=
  match s with
  | [] => [(id, u)]
  | (k, v) :: rest => if k = id then (id, u) :: rest else (k, v) :: mapSet rest id u

/-- Go builtin `delete(a.data, id)`: remove the binding at `id`. -/
def mapDel (s : Store) (id : Nat) : Store :=
  match s with
  | [] => []
  | (k, v) :: rest => if k = id then mapDel rest id else (k, v) :: mapDel rest id

/-- Hex digit character for a value below 16 (lowercase, as the Go helper `encodeHex`). -/
def hexDigit (n : Nat) : Char :=
  if n < 10 then Char.ofNat (48 + n) else Char.ofNat (87 + n)

/-- Two lowercase hex characters encoding one byte. -/
def hexPair (b : Nat) : String :=
  String.mk [hexDigit (b / 16 % 16), hexDigit (b % 16)]

/-- The 16 bytes of a 128-bit identifier, big-endian (Go `uuid.UUID` array). -/
def idBytes (id : Nat) : List Nat :=
  (List.range 16).map (fun i => id / 256 ^ (15 - i) % 256)

/-- Model of `uuid.UUID.String()`: canonical hyphenated lowercase hex form
xxxxxxxx-xxxx-xxxx-xxxx-xxxxxxxxxxxx. -/
def idToString (id : Nat) : String :=
  let bs := idBytes id
  String.join ((bs.take 4).map hexPair) ++ "-" ++
  String.join (((bs.drop 4).take 2).map hexPair) ++ "-" ++
  String.join (((bs.drop 6).take 2).map hexPair) ++ "-" ++
  String.join (((bs.drop 8).take 2).map hexPair) ++ "-" ++
  String.join ((bs.drop 10).map hexPair)

/-- Hex digit decoding via the `xvalues` table from `google/uuid` (accepts 0-9, a-f, A-F). -/
def xval (c : Char) : Option Nat :=
  if 48 ≤ c.toNat ∧ c.toNat ≤ 57 then some (c.toNat - 48)
  else if 97 ≤ c.toNat ∧ c.toNat ≤ 102 then some (c.toNat - 87)
  else if 65 ≤ c.toNat ∧ c.toNat ≤ 70 then some (c.toNat - 55)
  else none

/-- Model of `xtob` from `google/uuid`: decode one byte from two hex characters. -/
def xtob (c1 c2 : Char) : Option Nat :=
  match xval c1, xval c2 with
  | some h, some l => some (h * 16 + l)
  | _, _ => none

/-- Character positions of the 16 hex byte pairs in the canonical 36-character
UUID form (from the position table in `uuid.Parse`). -/
def hexPositions : List Nat := [0, 2, 4, 6, 9, 11, 14, 16, 19, 21, 24, 26, 28, 30, 32, 34]

/-- Parse the canonical hyphenated form: dashes at positions 8, 13, 18, 23 and
16 hex byte pairs; extra trailing characters are ignored, as in `uuid.Parse`
(which checks only these positions). -/
def parseCanonical (cs : List Char) : Option Nat :=
  if cs.getD 8 'x' = '-' ∧ cs.getD 13 'x' = '-' ∧ cs.getD 18 'x' = '-' ∧ cs.getD 23 'x' = '-' then
    hexPositions.foldl
      (fun acc p =>
        match acc, xtob (cs.getD p 'x') (cs.getD (p + 1) 'x') with
        | some n, some b => some (n * 256 + b)
        | _, _ => none)
      (some 0)
  else none

/-- Parse the 32-character unhyphenated hex form (the `case 32` of `uuid.Parse`). -/
def parse32 (cs : List Char) : Option Nat :=
  (List.range 16).foldl
    (fun acc i =>
      match acc, xtob (cs.getD (2 * i) 'x') (cs.getD (2 * i + 1) 'x') with
      | some n, some b => some (n * 256 + b)
      | _, _ => none)
    (some 0)

/-- Model of `uuid.Parse`: dispatch on the string length — 36 canonical, 45 with
case-insensitive urn:uuid: prefix, 38 with a stripped leading brace, 32 bare
hex; every other length is invalid. -/
def parseUUID (str : String) : Option Nat :=
  let cs := str.toList
  match cs.length with
  | 36 => parseCanonical cs
  | 45 =>
    if String.toLower (String.mk (cs.take 9)) = "urn:uuid:" then parseCanonical (cs.drop 9)
    else none
  | 38 => parseCanonical (cs.drop 1)
  | 32 => parse32 cs
  | _ => none

/-- The retry loop in `Insert`: draw candidates `gen i, gen (i+1), ...` until
one is not a key of the store; `fuel` bounds the number of draws, `none`
meaning the loop has not yet terminated. -/
def genFresh (gen : Nat → Nat) (s : Store) : Nat → Nat → Option Nat
  | _, 0 => none
  | i, fuel + 1 =>
    if (lookupS s (gen i)).isSome then genFresh gen s (i + 1) fuel else some (gen i)

/-- Store method `(*application).Insert`: generate a fresh identifier (retry on collision),
store the record, and return the new store, the record read back from the map
(`a.data[id]`, zero value if absent), and the string form of the identifier. -/
def Insert (gen : Nat → Nat) (fuel : Nat) (user : User) (s : Store) :
    Option (Store × User × String) :=
  match genFresh gen s 0 fuel with
  | none => none
  | some id =>
    let s2 := mapSet s id user
    some (s2, (lookupS s2 id).getD ⟨"", "", ""⟩, idToString id)

/-- Store method `(*application).FindAll`: returns the map itself. -/
def FindAll (s : Store) : Store := s

/-- Store method `(*application).FindByID`: the record at `id`, or `none` (Go: nil pointer). -/
def FindByID (s : Store) (id : Nat) : Option User :=
  lookupS s id

/-- Store method `(*application).Update`: replace the record at `id` if present, otherwise
return with the store untouched. -/
def Update (s : Store) (id : Nat) (user : User) : Store :=
  if (lookupS s id).isSome then mapSet s id user else s

/-- Store method `(*application).Delete`: remove the record at `id` if present, otherwise
return with the store untouched. -/
def Delete (s : Store) (id : Nat) : Store :=
  if (lookupS s id).isSome then mapDel s id else s

/-- A JSON value, for request bodies (numbers kept as their literal text:
no handler inspects a numeric value, only whether one appears where a string
is required). -/
inductive Json where
  | null
  | bool (b : Bool)
  | num (lit : String)
  | str (s : String)
  | arr (elems : List Json)
  | obj (fields : List (String × Json))

/-- Case-insensitive field-name match, as `encoding/json` matches object keys
to struct tags with `strings.EqualFold`. -/
def eqFold (a b : String) : Bool :=
  String.toLower a == String.toLower b

/-- The object key bound to struct field `key`: the last matching occurrence
wins, as each matching key in `encoding/json` assigns the field in turn. -/
def jLookup (fields : List (String × Json)) (key : String) : Option Json :=
  (fields.reverse.find? (fun p => eqFold p.1 key)).map (fun p => p.2)

/-- Decode one string-typed struct field: absent or JSON null leaves the zero
value "", a JSON string assigns it, any other JSON value is a decode error. -/
def strField (fields : List (String × Json)) (key : String) : Option String :=
  match jLookup fields key with
  | none => some ""
  | some Json.null => some ""
  | some (Json.str s) => some s
  | some _ => none

/-- Model of `json.Decoder.Decode(&body)` for `var body User`: a JSON object assigns
the matching fields (unknown keys ignored), JSON null leaves the zero value,
and any other top-level value is an error. -/
def decodeUserJson : Json → Option User
  | Json.null => some ⟨"", "", ""⟩
  | Json.obj fields =>
    match strField fields "first_name", strField fields "last_name",
        strField fields "biography" with
    | some f, some l, some b => some ⟨f, l, b⟩
    | _, _, _ => none
  | _ => none

/-- The request body as received: `none` when it is not well-formed JSON at
all (including an empty body), so that decoding fails. -/
def decodeBody : Option Json → Option User
  | none => none
  | some j => decodeUserJson j

/-- Go struct `UserResponse`: the user record plus the identifier string. -/
structure UserResponse where
  ID : String
  FirstName : String
  LastName : String
  Biography : String
deriving DecidableEq, Repr

/-- What the handlers place in `Response.Data`: a single `UserResponse` or a
slice of them. -/
inductive Payload where
  | user (u : UserResponse)
  | users (us : List UserResponse)
deriving DecidableEq, Repr

/-- Go struct `Response`: `Error string` and `Data any`, both `omitempty`.
`Data: none` is the nil interface (field omitted); `some (Payload.users [])`
is a non-nil empty slice (field emitted as `[]`). -/
structure Response where
  Error : String
  Data : Option Payload
deriving DecidableEq, Repr

/-- String escaping of `encoding/json` with the default HTML escaping of
`json.Marshal`: quote, backslash, the HTML characters, control characters,
and the two line separators U+2028/U+2029. -/
def escapeChar (c : Char) : String :=
  if c = '"' then "\\\""
  else if c = '\\' then "\\\\"
  else if c = '\x0a' then "\\n"
  else if c = '\x0d' then "\\r"
  else if c = '\x09' then "\\t"
  else if c = '<' then "\\u003c"
  else if c = '>' then "\\u003e"
  else if c = '&' then "\\u0026"
  else if c.toNat < 32 then "\\u00" ++ hexPair c.toNat
  else if c.toNat = 8232 then "\\u2028"
  else if c.toNat = 8233 then "\\u2029"
  else String.mk [c]

/-- A JSON string literal for `s`. -/
def quoteStr (s : String) : String :=
  "\"" ++ String.join (s.toList.map escapeChar) ++ "\""

/-- Marshalling of a `UserResponse` (fields in struct order). -/
def marshalUserResponse (u : UserResponse) : String :=
  "\x7b\"id\":" ++ quoteStr u.ID ++
  ",\"first_name\":" ++ quoteStr u.FirstName ++
  ",\"last_name\":" ++ quoteStr u.LastName ++
  ",\"biography\":" ++ quoteStr u.Biography ++ "\x7d"

/-- Marshalling of a `Data` payload. -/
def marshalPayload : Payload → String
  | Payload.user u => marshalUserResponse u
  | Payload.users us => "[" ++ String.intercalate "," (us.map marshalUserResponse) ++ "]"

/-- Marshalling of a `Response`: `omitempty` drops `Error` when it is the
empty string and `Data` when the interface is nil. -/
def marshalResponse (r : Response) : String :=
  let fields : List String :=
    (if r.Error = "" then [] else ["\"error\":" ++ quoteStr r.Error]) ++
    (match r.Data with
     | none => []
     | some p => ["\"data\":" ++ marshalPayload p])
  "\x7b" ++ String.intercalate "," fields ++ "\x7d"

/-- What reaches the client: the status code and the response body bytes. -/
structure HttpResponse where
  status : Nat
  body : String
deriving DecidableEq, Repr

/-- Predicate `bodyAllowed` of `net/http`: status codes 1xx, 204 and 304 must not carry a
body; a `Write` on such a response fails and sends nothing. -/
def bodyAllowed (status : Nat) : Bool :=
  !(status == 204 || status == 304 || (100 ≤ status && status < 200))

/-- Helper `sendJSON`: set the status, marshal the envelope and write it; the write
is suppressed by `net/http` when the status forbids a body. -/
def sendJSON (resp : Response) (status : Nat) : HttpResponse :=
  { status := status
    body := if bodyAllowed status then marshalResponse resp else "" }

/-- Model of `http.Error(w, msg, code)`: plain-text error with a trailing newline. -/
def httpError (msg : String) (status : Nat) : HttpResponse :=
  { status := status, body := msg ++ "\x0a" }

/-- Handler `CreateUserHandler`: decode the body as a `User` (400 on failure), insert
it, and answer 201 with the created record and its identifier.  The result is
`none` only when the insert loop exhausts its fuel. -/
def CreateUserHandler (gen : Nat → Nat) (fuel : Nat) (s : Store) (raw : Option Json) :
    Option (HttpResponse × Store) :=
  match decodeBody raw with
  | none =>
    some (sendJSON ⟨"Please provide FirstName LastName and bio for the user", none⟩ 400, s)
  | some body =>
    match Insert gen fuel body s with
    | none => none
    | some (s2, user, idStr) =>
      some (sendJSON ⟨"", some (Payload.user
        ⟨idStr, user.FirstName, user.LastName, user.Biography⟩)⟩ 201, s2)

/-- Handler `FindAllUsersHandler`: collect all records into a slice (`none` models the
nil slice left by an empty loop) and answer 200, substituting an empty non-nil
slice when the loop appended nothing. -/
def FindAllUsersHandler (s : Store) : HttpResponse :=
  let response : Option (List UserResponse) :=
    (FindAll s).foldl
      (fun acc p =>
        some ((acc.getD []) ++
          [⟨idToString p.1, p.2.FirstName, p.2.LastName, p.2.Biography⟩]))
      none
  match response with
  | none => sendJSON ⟨"", some (Payload.users [])⟩ 200
  | some r => sendJSON ⟨"", some (Payload.users r)⟩ 200

/-- Handler `FindByIDUserHandler`: parse the path id (400 on failure), look it up
(404 if absent), answer 200 with the record; the echoed id is the raw path
segment. -/
def FindByIDUserHandler (s : Store) (rawID : String) : HttpResponse :=
  match parseUUID rawID with
  | none => httpError "UUID not valid" 400
  | some id =>
    match FindByID s id with
    | none => sendJSON ⟨"The user with the specified ID does not exist.", none⟩ 404
    | some user =>
      sendJSON ⟨"", some (Payload.user
        ⟨rawID, user.FirstName, user.LastName, user.Biography⟩)⟩ 200

/-- Handler `UpdateUserHandler`: decode the body first (400 on failure), then parse
the path id (400), then look it up (404), then replace the record and answer
204. -/
def UpdateUserHandler (s : Store) (rawID : String) (raw : Option Json) :
    HttpResponse × Store :=
  match decodeBody raw with
  | none =>
    (sendJSON ⟨"Please provide FirstName LastName and bio for the user", none⟩ 400, s)
  | some body =>
    match parseUUID rawID with
    | none => (httpError "UUID not valid" 400, s)
    | some id =>
      match FindByID s id with
      | none => (sendJSON ⟨"The user with the specified ID does not exist.", none⟩ 404, s)
      | some _ => (sendJSON ⟨"", none⟩ 204, Update s id body)

/-- Handler `DeleteUserHandler`: parse the path id (400 on failure), look it up (404),
then delete the record and answer 204. -/
def DeleteUserHandler (s : Store) (rawID : String) : HttpResponse × Store :=
  match parseUUID rawID with
  | none => (httpError "UUID not valid" 400, s)
  | some id =>
    match FindByID s id with
    | none => (sendJSON ⟨"The user with the specified ID does not exist.", none⟩ 404, s)
    | some _ => (sendJSON ⟨"", none⟩ 204, Delete s id)

/-- One store operation, for reasoning about interleaved sequences.  An
insert carries its own generator stream and fuel. -/
inductive Op where
  | insert (user : User) (gen : Nat → Nat) (fuel : Nat)
  | update (id : Nat) (user : User)
  | delete (id : Nat)
  | findAll
  | findByID (id : Nat)

/-- The store after one operation.  `FindAll` returns the map itself, so the
state after it is exactly that returned map; reads leave the store as is; an
insert whose loop has not terminated yields no new state. -/
def applyOp (s : Store) : Op → Store
  | Op.insert u gen fuel =>
    match Insert gen fuel u s with
    | some (s2, _, _) => s2
    | none => s
  | Op.update id u => Update s id u
  | Op.delete id => Delete s id
  | Op.findAll => FindAll s
  | Op.findByID _ => s

/-- The store after a sequence of operations. -/
def run (s : Store) (ops : List Op) : Store :=
  ops.foldl applyOp s

/-- Returns `true` unless the operation is an `update` or `delete` aimed at `id`. -/
def avoids (id : Nat) : Op → Bool
  | Op.update j _ => decide (j ≠ id)
  | Op.delete j => decide (j ≠ id)
  | _ => true

theorem lookupS_mapSet_self (s : Store) (id : Nat) (u : User) :
    lookupS (mapSet s id u) id = some u := by
  induction s with
  | nil => simp [mapSet, lookupS]
  | cons p rest ih =>
    obtain ⟨k, v⟩ := p
    by_cases hk : k = id
    · simp [mapSet, hk, lookupS]
    · simp [mapSet, hk, lookupS, ih]

theorem lookupS_mapSet_ne (s : Store) (id k : Nat) (u : User) (h : k ≠ id) :
    lookupS (mapSet s id u) k = lookupS s k := by
  induction s with
  | nil => simp [mapSet, lookupS, Ne.symm h]
  | cons p rest ih =>
    obtain ⟨k2, v⟩ := p
    by_cases hk : k2 = id
    · subst hk
      simp [mapSet, lookupS, Ne.symm h]
    · by_cases hk2 : k2 = k
      · simp [mapSet, hk, lookupS, hk2, h]
      · simp [mapSet, hk, lookupS, hk2, ih]

theorem lookupS_mapDel_ne (s : Store) (id k : Nat) (h : k ≠ id) :
    lookupS (mapDel s id) k = lookupS s k := by
  induction s with
  | nil => simp [mapDel]
  | cons p rest ih =>
    obtain ⟨k2, v⟩ := p
    by_cases hk : k2 = id
    · subst hk
      simp [mapDel, lookupS, Ne.symm h, ih]
    · by_cases hk2 : k2 = k
      · simp [mapDel, hk, lookupS, hk2, h]
      · simp [mapDel, hk, lookupS, hk2, ih]

theorem genFresh_lookup_eq_none (gen : Nat → Nat) (s : Store) :
    ∀ fuel i id, genFresh gen s i fuel = some id → lookupS s id = none := by
  intro fuel
  induction fuel with
  | zero => intro i id h; simp [genFresh] at h
  | succ n ih =>
    intro i id h
    by_cases hmem : (lookupS s (gen i)).isSome
    · exact ih (i + 1) id (by simpa [genFresh, hmem] using h)
    · have hid : id = gen i := by
        simpa [genFresh, hmem] using h.symm
      subst hid
      exact Option.not_isSome_iff_eq_none.mp hmem

theorem genFresh_succeeds (gen : Nat → Nat) (s : Store) :
    ∀ j i, lookupS s (gen (i + j)) = none →
      ∃ id, genFresh gen s i (j + 1) = some id := by
  intro j
  induction j with
  | zero =>
    intro i h
    simp only [Nat.add_zero] at h
    refine ⟨gen i, ?_⟩
    simp [genFresh, h]
  | succ n ih =>
    intro i h
    by_cases hmem : (lookupS s (gen i)).isSome
    · obtain ⟨id, hid⟩ := ih (i + 1) (by
        have : i + 1 + n = i + (n + 1) := by omega
        rw [this]
        exact h)
      exact ⟨id, by simpa [genFresh, hmem] using hid⟩
    · exact ⟨gen i, by simp [genFresh, hmem]⟩

theorem lookupS_eq_none_of_not_mem (s : Store) (id : Nat)
    (h : id ∉ s.map Prod.fst) : lookupS s id = none := by
  induction s with
  | nil => rfl
  | cons p rest ih =>
    obtain ⟨k, v⟩ := p
    simp only [List.map_cons, List.mem_cons] at h
    push_neg at h
    simp [lookupS, Ne.symm h.1, ih h.2]

theorem exists_fresh_value (s : Store) (h : s.length < 2 ^ 128) :
    ∃ v, v < 2 ^ 128 ∧ lookupS s v = none := by
  have hcard : (s.map Prod.fst).toFinset.card < (Finset.range (2 ^ 128)).card := by
    calc (s.map Prod.fst).toFinset.card ≤ (s.map Prod.fst).length :=
          List.toFinset_card_le _
      _ = s.length := List.length_map _ _
      _ < 2 ^ 128 := h
      _ = (Finset.range (2 ^ 128)).card := (Finset.card_range _).symm
  have hns : ¬ Finset.range (2 ^ 128) ⊆ (s.map Prod.fst).toFinset := by
    intro hsub
    exact absurd (Finset.card_le_card hsub) (Nat.not_le.mpr hcard)
  obtain ⟨v, hv, hvn⟩ := Finset.not_subset.mp hns
  exact ⟨v, Finset.mem_range.mp hv,
    lookupS_eq_none_of_not_mem s v (fun hm => hvn (List.mem_toFinset.mpr hm))⟩

theorem lookupS_applyOp (s : Store) (op : Op) (id : Nat) (u : User)
    (hav : avoids id op = true) (h : lookupS s id = some u) :
    lookupS (applyOp s op) id = some u := by
  cases op with
  | insert u2 gen fuel =>
    cases hg : genFresh gen s 0 fuel with
    | none => simpa [applyOp, Insert, hg] using h
    | some id2 =>
      have hfresh : lookupS s id2 = none := genFresh_lookup_eq_none gen s fuel 0 id2 hg
      have hne : id ≠ id2 := by
        intro he
        rw [he, hfresh] at h
        exact Option.noConfusion h
      simpa [applyOp, Insert, hg, lookupS_mapSet_ne s id2 id u2 hne] using h
  | update j u2 =>
    have hj : j ≠ id := by simpa [avoids] using hav
    by_cases hmem : (lookupS s j).isSome
    · simpa [applyOp, Update, hmem, lookupS_mapSet_ne s j id u2 (Ne.symm hj)] using h
    · simpa [applyOp, Update, hmem] using h
  | delete j =>
    have hj : j ≠ id := by simpa [avoids] using hav
    by_cases hmem : (lookupS s j).isSome
    · simpa [applyOp, Delete, hmem, lookupS_mapDel_ne s j id (Ne.symm hj)] using h
    · simpa [applyOp, Delete, hmem] using h
  | findAll => simpa [applyOp, FindAll] using h
  | findByID j => simpa [applyOp] using h

theorem lookupS_run (ops : List Op) : ∀ (s : Store) (id : Nat) (u : User),
    (∀ op ∈ ops, avoids id op = true) → lookupS s id = some u →
    lookupS (run s ops) id = some u := by
  induction ops with
  | nil => intro s id u _ h; simpa [run] using h
  | cons op rest ih =>
    intro s id u hav h
    have h1 : lookupS (applyOp s op) id = some u :=
      lookupS_applyOp s op id u (hav op (List.mem_cons_self op rest)) h
    have h2 := ih (applyOp s op) id u (fun o ho => hav o (List.mem_cons_of_mem op ho)) h1
    simpa [run, List.foldl_cons] using h2

/-- C1: for every user and store state, once the generator stream yields some
identifier that is free, `Insert` succeeds: it finds a fresh identifier not
already a key, stores the record under it, and returns the stored record
together with the string form of the identifier. -/
theorem Insert_succeeds (s : Store) (u : User) (gen : Nat → Nat)
    (h : ∃ n, lookupS s (gen n) = none) :
    ∃ fuel id, genFresh gen s 0 fuel = some id ∧ lookupS s id = none ∧
      Insert gen fuel u s = some (mapSet s id u, u, idToString id) ∧
      lookupS (mapSet s id u) id = some u := by
  obtain ⟨n, hn⟩ := h
  obtain ⟨id, hid⟩ := genFresh_succeeds gen s n 0 (by simpa using hn)
  refine ⟨n + 1, id, hid, genFresh_lookup_eq_none gen s (n + 1) 0 id hid, ?_,
    lookupS_mapSet_self s id u⟩
  simp [Insert, hid, lookupS_mapSet_self]

theorem Insert_succeeds_witness :
    ∃ fuel id, genFresh (fun _ => 0) ([] : Store) 0 fuel = some id ∧
      lookupS [] id = none ∧
      Insert (fun _ => 0) fuel ⟨"Ada", "Lovelace", "mathematician"⟩ [] =
        some (mapSet [] id ⟨"Ada", "Lovelace", "mathematician"⟩,
          ⟨"Ada", "Lovelace", "mathematician"⟩, idToString id) ∧
      lookupS (mapSet [] id ⟨"Ada", "Lovelace", "mathematician"⟩) id =
        some ⟨"Ada", "Lovelace", "mathematician"⟩ :=
  Insert_succeeds [] ⟨"Ada", "Lovelace", "mathematician"⟩ (fun _ => 0) ⟨0, rfl⟩

/-- C2: after an `Insert` of `u` that returns identifier `id`, `FindByID id`
yields a record equal to `u`, and it still does after any sequence of
operations containing no `Update` or `Delete` aimed at `id`. -/
theorem FindByID_after_Insert (s : Store) (u : User) (gen : Nat → Nat)
    (fuel id : Nat) (ops : List Op)
    (hid : genFresh gen s 0 fuel = some id)
    (hops : ∀ op ∈ ops, avoids id op = true) :
    Insert gen fuel u s = some (mapSet s id u, u, idToString id) ∧
    FindByID (mapSet s id u) id = some u ∧
    FindByID (run (mapSet s id u) ops) id = some u := by
  refine ⟨by simp [Insert, hid, lookupS_mapSet_self], lookupS_mapSet_self s id u, ?_⟩
  exact lookupS_run ops (mapSet s id u) id u hops (lookupS_mapSet_self s id u)

theorem FindByID_after_Insert_witness :
    Insert (fun _ => 7) 1 ⟨"Ada", "L", "m"⟩ [] =
      some (mapSet [] 7 ⟨"Ada", "L", "m"⟩, ⟨"Ada", "L", "m"⟩, idToString 7) ∧
    FindByID (mapSet [] 7 ⟨"Ada", "L", "m"⟩) 7 = some ⟨"Ada", "L", "m"⟩ ∧
    FindByID (run (mapSet [] 7 ⟨"Ada", "L", "m"⟩)
      [Op.insert ⟨"x", "y", "z"⟩ (fun _ => 5) 1, Op.update 3 ⟨"q", "q", "q"⟩,
        Op.delete 3, Op.findAll, Op.findByID 7]) 7 = some ⟨"Ada", "L", "m"⟩ :=
  FindByID_after_Insert [] ⟨"Ada", "L", "m"⟩ (fun _ => 7) 1 7
    [Op.insert ⟨"x", "y", "z"⟩ (fun _ => 5) 1, Op.update 3 ⟨"q", "q", "q"⟩,
      Op.delete 3, Op.findAll, Op.findByID 7]
    rfl (by decide)

/-- C9: the collision retry loop terminates whenever the store holds fewer
than 2^128 entries, for any generator stream that can reach every 128-bit
value: some fuel makes `genFresh` return a free identifier and `Insert`
succeed. -/
theorem insert_loop_terminates (s : Store) (gen : Nat → Nat) (u : User)
    (hsur : ∀ v, v < 2 ^ 128 → ∃ n, gen n = v)
    (hlen : s.length < 2 ^ 128) :
    ∃ fuel id, genFresh gen s 0 fuel = some id ∧ lookupS s id = none ∧
      (Insert gen fuel u s).isSome = true := by
  obtain ⟨v, hv, hvn⟩ := exists_fresh_value s hlen
  obtain ⟨n, hn⟩ := hsur v hv
  obtain ⟨id, hid⟩ := genFresh_succeeds gen s n 0 (by rw [Nat.zero_add, hn]; exact hvn)
  exact ⟨n + 1, id, hid, genFresh_lookup_eq_none gen s (n + 1) 0 id hid,
    by simp [Insert, hid]⟩

theorem insert_loop_terminates_witness :
    ∃ fuel id, genFresh (fun n => n) ([] : Store) 0 fuel = some id ∧
      lookupS [] id = none ∧
      (Insert (fun n => n) fuel ⟨"a", "b", "c"⟩ []).isSome = true :=
  insert_loop_terminates [] (fun n => n) ⟨"a", "b", "c"⟩ (fun v _ => ⟨v, rfl⟩)
    (by norm_num)

/-- C10: `Update` and `Delete` leave every key other than their target
unchanged, and `FindAll` and `FindByID` leave the entire store unchanged. -/
theorem frame_effects (s : Store) (id k : Nat) (u : User) (h : k ≠ id) :
    lookupS (Update s id u) k = lookupS s k ∧
    lookupS (Delete s id) k = lookupS s k ∧
    FindAll s = s ∧
    applyOp s Op.findAll = s ∧
    applyOp s (Op.findByID id) = s := by
  refine ⟨?_, ?_, rfl, rfl, rfl⟩
  · by_cases hmem : (lookupS s id).isSome
    · simp [Update, hmem, lookupS_mapSet_ne s id k u h]
    · simp [Update, hmem]
  · by_cases hmem : (lookupS s id).isSome
    · simp [Delete, hmem, lookupS_mapDel_ne s id k h]
    · simp [Delete, hmem]

theorem frame_effects_witness :
    lookupS (Update [(0, ⟨"a", "b", "c"⟩)] 1 ⟨"x", "y", "z"⟩) 0 =
      lookupS [(0, ⟨"a", "b", "c"⟩)] 0 ∧
    lookupS (Delete [(0, ⟨"a", "b", "c"⟩)] 1) 0 = lookupS [(0, ⟨"a", "b", "c"⟩)] 0 ∧
    FindAll [(0, ⟨"a", "b", "c"⟩)] = [(0, ⟨"a", "b", "c"⟩)] ∧
    applyOp [(0, ⟨"a", "b", "c"⟩)] Op.findAll = [(0, ⟨"a", "b", "c"⟩)] ∧
    applyOp [(0, ⟨"a", "b", "c"⟩)] (Op.findByID 1) = [(0, ⟨"a", "b", "c"⟩)] :=
  frame_effects [(0, ⟨"a", "b", "c"⟩)] 1 0 ⟨"x", "y", "z"⟩ (by decide)

/-- C3: `Update` on an identifier absent from the store returns the store
untouched, and a PUT for such an identifier (with a decodable body) answers
404 with the JSON error envelope, leaving the store unchanged. -/
theorem update_nonexistent (s : Store) (id : Nat) (u : User) (rawID : String)
    (raw : Option Json) (body : User)
    (habs : lookupS s id = none)
    (hparse : parseUUID rawID = some id)
    (hdec : decodeBody raw = some body) :
    Update s id u = s ∧
    (UpdateUserHandler s rawID raw).1 =
      ⟨404, "\x7b\"error\":\"The user with the specified ID does not exist.\"\x7d"⟩ ∧
    (UpdateUserHandler s rawID raw).2 = s := by
  refine ⟨by simp [Update, habs], ?_, ?_⟩
  · simp only [UpdateUserHandler, hdec, hparse, FindByID, habs]
    decide
  · simp only [UpdateUserHandler, hdec, hparse, FindByID, habs]

theorem update_nonexistent_witness :
    Update [] 0 ⟨"x", "y", "z"⟩ = [] ∧
    (UpdateUserHandler [] "00000000-0000-0000-0000-000000000000" (some Json.null)).1 =
      ⟨404, "\x7b\"error\":\"The user with the specified ID does not exist.\"\x7d"⟩ ∧
    (UpdateUserHandler [] "00000000-0000-0000-0000-000000000000" (some Json.null)).2 = [] :=
  update_nonexistent [] 0 ⟨"x", "y", "z"⟩ "00000000-0000-0000-0000-000000000000"
    (some Json.null) ⟨"", "", ""⟩ rfl (by decide) rfl

/-- C4: listing the users of an empty store answers 200 with body exactly
the data key bound to an empty JSON array. -/
theorem findAll_empty : FindAllUsersHandler [] = ⟨200, "\x7b\"data\":[]\x7d"⟩ := by
  decide

/-- C5: for an identifier present in the store, a successful PUT (decodable
body) and a successful DELETE both answer 204, and `net/http` suppresses the
attempted envelope write, so the body on the wire is empty. -/
theorem put_delete_success (s : Store) (rawID : String) (id : Nat)
    (u0 body : User) (raw : Option Json)
    (hparse : parseUUID rawID = some id)
    (hfound : lookupS s id = some u0)
    (hdec : decodeBody raw = some body) :
    (UpdateUserHandler s rawID raw).1 = ⟨204, ""⟩ ∧
    (DeleteUserHandler s rawID).1 = ⟨204, ""⟩ := by
  constructor
  · simp only [UpdateUserHandler, hdec, hparse, FindByID, hfound]
    decide
  · simp only [DeleteUserHandler, hparse, FindByID, hfound]
    decide

theorem put_delete_success_witness :
    (UpdateUserHandler [(0, ⟨"a", "b", "c"⟩)] "00000000-0000-0000-0000-000000000000"
      (some Json.null)).1 = ⟨204, ""⟩ ∧
    (DeleteUserHandler [(0, ⟨"a", "b", "c"⟩)]
      "00000000-0000-0000-0000-000000000000").1 = ⟨204, ""⟩ :=
  put_delete_success [(0, ⟨"a", "b", "c"⟩)] "00000000-0000-0000-0000-000000000000" 0
    ⟨"a", "b", "c"⟩ ⟨"", "", ""⟩ (some Json.null) (by decide) (by decide) rfl

/-- C6 counterexample: the PUT handler decodes the body before parsing the
path identifier, so a request whose identifier is invalid and whose body is
undecodable is rejected with the body-decode 400 envelope, not with the
UUID-parse rejection the claim requires. -/
theorem update_order_counterexample :
    parseUUID "not-a-uuid" = none ∧
    decodeBody none = none ∧
    (UpdateUserHandler [] "not-a-uuid" none).1 ≠ httpError "UUID not valid" 400 ∧
    (UpdateUserHandler [] "not-a-uuid" none).1 =
      ⟨400, "\x7b\"error\":\"Please provide FirstName LastName and bio for the user\"\x7d"⟩ := by
  decide

/-- C6 amended: the PUT handler decodes the request body first and parses the
path identifier second, so an undecodable body is rejected with the 400 body
envelope regardless of the identifier, and an invalid identifier is rejected
with the plain-text 400 only when the body is decodable; in either case the
status is 400. -/
theorem update_order_amended (s : Store) (rawID : String) (raw : Option Json) :
    (decodeBody raw = none →
      (UpdateUserHandler s rawID raw).1 =
        ⟨400, "\x7b\"error\":\"Please provide FirstName LastName and bio for the user\"\x7d"⟩) ∧
    (∀ body, decodeBody raw = some body → parseUUID rawID = none →
      (UpdateUserHandler s rawID raw).1 = httpError "UUID not valid" 400) := by
  constructor
  · intro hdec
    simp only [UpdateUserHandler, hdec]
    decide
  · intro body hdec hparse
    simp only [UpdateUserHandler, hdec, hparse]

theorem update_order_amended_witness :
    (UpdateUserHandler [] "not-a-uuid" none).1 =
      ⟨400, "\x7b\"error\":\"Please provide FirstName LastName and bio for the user\"\x7d"⟩ ∧
    (UpdateUserHandler [] "not-a-uuid" (some Json.null)).1 =
      httpError "UUID not valid" 400 :=
  ⟨(update_order_amended [] "not-a-uuid" none).1 rfl,
    (update_order_amended [] "not-a-uuid" (some Json.null)).2 ⟨"", "", ""⟩ rfl (by decide)⟩

/-- C7: fetching a syntactically valid identifier that is not a key of the
store answers 404 with exactly the JSON error envelope. -/
theorem findByID_not_found (s : Store) (rawID : String) (id : Nat)
    (hparse : parseUUID rawID = some id)
    (habs : lookupS s id = none) :
    FindByIDUserHandler s rawID =
      ⟨404, "\x7b\"error\":\"The user with the specified ID does not exist.\"\x7d"⟩ := by
  simp only [FindByIDUserHandler, hparse, FindByID, habs]
  decide

theorem findByID_not_found_witness :
    FindByIDUserHandler [] "00000000-0000-0000-0000-000000000000" =
      ⟨404, "\x7b\"error\":\"The user with the specified ID does not exist.\"\x7d"⟩ :=
  findByID_not_found [] "00000000-0000-0000-0000-000000000000" 0 (by decide) rfl

/-- C8: the create handler rejects with 400 exactly the undecodable bodies,
answers 201 on every decodable body — storing it and echoing its fields (the
empty object decodes with all three fields the empty string) — and a 400
among its answers characterises undecodability. -/
theorem create_status (gen : Nat → Nat) (fuel : Nat) (s : Store) (raw : Option Json) :
    (decodeBody raw = none →
      CreateUserHandler gen fuel s raw =
        some (⟨400,
          "\x7b\"error\":\"Please provide FirstName LastName and bio for the user\"\x7d"⟩, s)) ∧
    (∀ u id, decodeBody raw = some u → genFresh gen s 0 fuel = some id →
      CreateUserHandler gen fuel s raw =
        some (⟨201, marshalResponse ⟨"", some (Payload.user
          ⟨idToString id, u.FirstName, u.LastName, u.Biography⟩)⟩⟩, mapSet s id u)) ∧
    (∀ r s2, CreateUserHandler gen fuel s raw = some (r, s2) →
      (r.status = 400 ↔ decodeBody raw = none)) ∧
    decodeUserJson (Json.obj []) = some ⟨"", "", ""⟩ := by
  refine ⟨?_, ?_, ?_, rfl⟩
  · intro hdec
    have hsend : sendJSON
        ⟨"Please provide FirstName LastName and bio for the user", none⟩ 400 =
        ⟨400,
          "\x7b\"error\":\"Please provide FirstName LastName and bio for the user\"\x7d"⟩ := by
      decide
    simp only [CreateUserHandler, hdec, hsend]
  · intro u id hdec hg
    have hba : bodyAllowed 201 = true := by decide
    simp [CreateUserHandler, hdec, Insert, hg, lookupS_mapSet_self, sendJSON, hba]
  · intro r s2 h
    cases hdec : decodeBody raw with
    | none =>
      simp only [CreateUserHandler, hdec, Option.some.injEq] at h
      have hr : (sendJSON
          ⟨"Please provide FirstName LastName and bio for the user", none⟩ 400) = r :=
        congrArg Prod.fst h
      rw [← hr]
      simp [sendJSON]
    | some u =>
      simp only [CreateUserHandler, hdec] at h
      cases hins : Insert gen fuel u s with
      | none => rw [hins] at h; exact Option.noConfusion h
      | some t =>
        obtain ⟨s3, user, idStr⟩ := t
        rw [hins] at h
        simp only [Option.some.injEq] at h
        have hr : (sendJSON ⟨"", some (Payload.user
            ⟨idStr, user.FirstName, user.LastName, user.Biography⟩)⟩ 201) = r :=
          congrArg Prod.fst h
        rw [← hr]
        simp [sendJSON, hdec]

theorem create_status_witness :
    CreateUserHandler (fun _ => 0) 1 [] (some (Json.obj [])) =
      some (⟨201, marshalResponse ⟨"", some (Payload.user
        ⟨idToString 0, "", "", ""⟩)⟩⟩, mapSet [] 0 ⟨"", "", ""⟩) :=
  (create_status (fun _ => 0) 1 [] (some (Json.obj []))).2.1 ⟨"", "", ""⟩ 0 rfl rfl

example : lookupS [(3, ⟨"a", "b", "c"⟩)] 3 = some ⟨"a", "b", "c"⟩ := by decide
example : FindAllUsersHandler [] = ⟨200, "\x7b\"data\":[]\x7d"⟩ := by decide
example : FindByIDUserHandler [] "00000000-0000-0000-0000-000000000000" =
    ⟨404, "\x7b\"error\":\"The user with the specified ID does not exist.\"\x7d"⟩ := by decide
example : UpdateUserHandler [] "not-a-uuid" none =
    (⟨400, "\x7b\"error\":\"Please provide FirstName LastName and bio for the user\"\x7d"⟩,
      []) := by decide
example : UpdateUserHandler [(0, ⟨"a", "b", "c"⟩)] "00000000-0000-0000-0000-000000000000"
    (some Json.null) = (⟨204, ""⟩, [(0, ⟨"", "", ""⟩)]) := by decide
example : DeleteUserHandler [(0, ⟨"a", "b", "c"⟩)] "00000000-0000-0000-0000-000000000000" =
    (⟨204, ""⟩, []) := by decide
example : idToString 0 = "00000000-0000-0000-0000-000000000000" := by decide
example : parseUUID "00000000-0000-0000-0000-000000000000" = some 0 := by decide
example : parseUUID "not-a-uuid" = none := by decide

end Api
